import Mathlib

/-!
# Verification of the ESP32 File & OTA Server (`main.py`)

Shallow embedding of the alias-download and OTA-update handlers of the
FastAPI application in `main.py`, together with the version comparator
behaviour the spec assigns to the `packaging.version` dependency.

Modelling conventions:

* HTTP error responses raised via `HTTPException` are embedded as an
  `AppError` value returned through `Except`; status 404 is `notFound`,
  403 is `forbidden`, 500 configuration failures are `configuration`,
  and the `packaging.version.InvalidVersion` exception raised on an
  unparsable version string is `invalidVersion`.
* The two JSON configuration files are modelled as a `ConfigSource`:
  either the file is absent (`FileNotFoundError`), its contents are not
  valid JSON (`json.JSONDecodeError`), or it parsed into a document.
  Documents are association lists with string keys, mirroring flat JSON
  objects; values are restricted to the string-valued shapes the spec
  describes (`mapping.json`: alias → filename string; `ota_config.json`:
  model → record of string fields).
* The filesystem is a parameter `FS`: which paths are regular files
  (`os.path.isfile`) and how paths canonicalize (`os.path.realpath`).
-/

/-- Error taxonomy of the server, as mapped to HTTP statuses:
`notFound` ↦ 404, `forbidden` ↦ 403, `configuration` ↦ 500,
`invalidVersion` ↦ the `InvalidVersion` exception from version parsing. -/
inductive AppError where
  | notFound
  | forbidden
  | configuration
  | invalidVersion
deriving DecidableEq, Repr

/-- State of a JSON configuration file on disk: absent
(`FileNotFoundError`), unparsable (`json.JSONDecodeError`), or loaded
into a document of type `α`. -/
inductive ConfigSource (α : Type) where
  | missing
  | malformed
  | ok (doc : α)
deriving DecidableEq, Repr

/-- The filesystem as seen by the handlers: `os.path.isfile` and
`os.path.realpath`. `realpath` may send a path anywhere (symlinks). -/
structure FS where
  isfile : String → Bool
  realpath : String → String

/-- `FILES_DIR = "static_files"` from `main.py`. -/
def FILES_DIR : String := "static_files"

/-- Does the string start with a `/` (an absolute POSIX path)? -/
def startsWithSlash (s : String) : Bool :=
  match s.data with
  | '/' :: _ => true
  | _ => false

/-- Does the string end with a `/`? -/
def endsWithSlash (s : String) : Bool :=
  match s.data.getLast? with
  | some '/' => true
  | _ => false

/-- POSIX `os.path.join(root, name)` for two components: an absolute
`name` discards `root`; otherwise the parts are joined with a single
separator. -/
def osJoin (root name : String) : String :=
  if startsWithSlash name then name
  else if root = "" || endsWithSlash root then root ++ name
  else root ++ "/" ++ name

/-- Character-wise longest common prefix of two character lists —
the semantics of Python's `os.path.commonprefix`, which compares
character by character with no awareness of path separators. -/
def commonPfxList : List Char → List Char → List Char
  | a :: as, b :: bs => if a = b then a :: commonPfxList as bs else []
  | _, _ => []

/-- `os.path.commonprefix((a, b))` on two strings. -/
def commonPfx (a b : String) : String := ⟨commonPfxList a.data b.data⟩

/-- Is `p` a prefix of `l` as character lists? -/
def listIsPfx : List Char → List Char → Bool
  | [], _ => true
  | _ :: _, [] => false
  | a :: as, b :: bs => a = b && listIsPfx as bs

/-- Directory-boundary-aware path containment, as the spec demands of
the Safe File Responder: the canonical candidate `cand` is under the
canonical root `root` iff it equals `root` or extends it past a `/`
boundary (so `/root2/x` is NOT under `/root`). This is the spec-side
notion; the code's check is `commonPfx` above. -/
def isPathUnder (root cand : String) : Bool :=
  cand == root || listIsPfx (root.data ++ ['/']) cand.data

/-- The Safe File Responder as inlined at `main.py` lines 50–53 and
112–115: join root and filename, 404 unless the joined path is a
regular file, then 403 when `os.path.commonprefix` of the two realpaths
differs from the root's realpath; otherwise the file at the joined path
is streamed (we return the served path). -/
def serve_file (fs : FS) (root filename : String) : Except AppError String :=
  let file_path := osJoin root filename
  if fs.isfile file_path = false then .error .notFound
  else if commonPfx (fs.realpath file_path) (fs.realpath root) ≠ fs.realpath root then
    .error .forbidden
  else .ok file_path

/-- `get_filename_from_alias` (`main.py` lines 21–36): load
`mapping.json`; a missing or malformed file is a 500, an alias that is
absent or maps to a falsy (empty) string is a 404, otherwise the mapped
filename is returned unmodified. -/
def get_filename_from_alias (src : ConfigSource (List (String × String)))
    (aliasName : String) : Except AppError String :=
  match src with
  | .missing => .error .configuration
  | .malformed => .error .configuration
  | .ok mapping =>
    match mapping.lookup aliasName with
    | none => .error .notFound
    | some filename => if filename = "" then .error .notFound else .ok filename

/-- `request_file_by_alias` (`main.py` lines 38–60): resolve the alias,
then serve the file from `FILES_DIR`. -/
def request_file_by_alias (fs : FS) (src : ConfigSource (List (String × String)))
    (aliasName : String) : Except AppError String :=
  match get_filename_from_alias src aliasName with
  | .error e => .error e
  | .ok filename => serve_file fs FILES_DIR filename

/-! ## Version comparator

`main.py` delegates version parsing and ordering to the external
`packaging.version` library (line 6 and lines 100–103), whose code is
not part of this repository, so the comparator itself is modelled from
the spec (§4.2). -/

/-- One pre-release identifier: numeric identifiers compare
numerically and sort before alphanumeric identifiers, which compare
lexically. Alphanumeric identifiers are kept as character lists. -/
inductive PreId where
  | num (n : Nat)
  | alnum (s : List Char)
deriving DecidableEq, Repr

/-- Modelled from the spec: the parsed ordered-tuple representation of
a `VersionString` (§4.2) — a dotted numeric core `major.minor.patch`
plus an optional pre-release suffix — produced by the external
`packaging.version` parser, which is not part of this repository. -/
structure Version where
  major : Nat
  minor : Nat
  patch : Nat
  pre : Option (List PreId)
deriving DecidableEq, Repr

/-- Numeric value of a digit character. -/
def digitVal (c : Char) : Nat := c.toNat - '0'.toNat

/-- Decimal value of a digit string. -/
def natOfDigits (l : List Char) : Nat :=
  l.foldl (fun acc c => 10 * acc + digitVal c) 0

/-- Parse one numeric component: nonempty, all digits, no leading
zero (so each version value has a unique spelling). -/
def parseNumComp (l : List Char) : Option Nat :=
  if l = [] then none
  else if l.all Char.isDigit = false then none
  else match l with
    | '0' :: _ :: _ => none
    | _ => some (natOfDigits l)

/-- Characters allowed in an alphanumeric pre-release identifier. -/
def isIdentChar (c : Char) : Bool := c.isDigit || c.isAlpha || c == '-'

/-- Parse one pre-release identifier: all-digit identifiers are
numeric (no leading zero), other identifier-charactered ones are
alphanumeric. -/
def parsePreId (l : List Char) : Option PreId :=
  if l = [] then none
  else if l.all Char.isDigit then (parseNumComp l).map .num
  else if l.all isIdentChar then some (.alnum l) else none

/-- Split a character list at the first `-`, separating the numeric
core from an optional pre-release suffix. -/
def splitAtDash : List Char → List Char × Option (List Char)
  | [] => ([], none)
  | c :: rest =>
    if c = '-' then ([], some rest)
    else
      let p := splitAtDash rest
      (c :: p.1, p.2)

/-- Split a character list on `.` into its dot-separated groups. -/
def splitDots : List Char → List (List Char)
  | [] => [[]]
  | c :: rest =>
    if c = '.' then [] :: splitDots rest
    else
      match splitDots rest with
      | [] => [[c]]
      | g :: gs => (c :: g) :: gs

/-- Modelled from the spec: parsing a `VersionString` (§4.2, §3),
standing in for `packaging.version.parse` (not part of this
repository). The string must be a dotted numeric `major.minor.patch`
core, optionally followed by `-` and a dot-separated pre-release;
anything else is malformed and yields `none` (the `InvalidVersion`
hard failure — no partial-match guessing). -/
def parseVersion (s : String) : Option Version :=
  let p := splitAtDash s.data
  match splitDots p.1 with
  | [a, b, c] =>
    match parseNumComp a, parseNumComp b, parseNumComp c with
    | some ma, some mi, some pa =>
      match p.2 with
      | none => some ⟨ma, mi, pa, none⟩
      | some pr =>
        match (splitDots pr).mapM parsePreId with
        | some ids => some ⟨ma, mi, pa, some ids⟩
        | none => none
    | _, _, _ => none
  | _ => none

/-- Three-way comparison on naturals. -/
def cmpNat (a b : Nat) : Ordering :=
  if a < b then .lt else if b < a then .gt else .eq

/-- Three-way comparison on characters, by code point. -/
def cmpChar (a b : Char) : Ordering := cmpNat a.toNat b.toNat

/-- Lexicographic comparison of lists from an element comparison; a
proper prefix sorts first. -/
def cmpLex (cmp : α → α → Ordering) : List α → List α → Ordering
  | [], [] => .eq
  | [], _ :: _ => .lt
  | _ :: _, [] => .gt
  | a :: as, b :: bs => (cmp a b).then (cmpLex cmp as bs)

/-- Modelled from the spec: precedence of pre-release identifiers —
numeric identifiers compare numerically and sort before alphanumeric
identifiers, which compare lexically. -/
def cmpPreId : PreId → PreId → Ordering
  | .num a, .num b => cmpNat a b
  | .num _, .alnum _ => .lt
  | .alnum _, .num _ => .gt
  | .alnum a, .alnum b => cmpLex cmpChar a b

/-- Modelled from the spec: a version with a pre-release suffix sorts
before the same numeric core without one (§4.2). -/
def cmpPre : Option (List PreId) → Option (List PreId) → Ordering
  | none, none => .eq
  | none, some _ => .gt
  | some _, none => .lt
  | some a, some b => cmpLex cmpPreId a b

/-- Modelled from the spec: ordering of parsed versions — numeric core
componentwise, then pre-release precedence (§4.2). -/
def compareVersion (a b : Version) : Ordering :=
  (cmpNat a.major b.major).then
    ((cmpNat a.minor b.minor).then
      ((cmpNat a.patch b.patch).then (cmpPre a.pre b.pre)))

/-- Modelled from the spec: the Version Comparator contract
`compare(a, b) -> {LESS, EQUAL, GREATER}` (§4.2); a malformed version
string on either side is the hard failure `InvalidVersionError`. -/
def compareVersionStr (a b : String) : Except AppError Ordering :=
  match parseVersion a, parseVersion b with
  | some va, some vb => .ok (compareVersion va vb)
  | _, _ => .error .invalidVersion

/-! ## OTA update handler -/

/-- One record of `ota_config.json`, a flat JSON object with string
values (the spec's `{latest_version, filename}` shape); kept as an
association list so that an empty record `{}` — which Python treats as
falsy — is representable. -/
abbrev OtaRecord := List (String × String)

/-- The `ota_config.json` document: device-model keys to records. -/
abbrev OtaPolicyDoc := List (String × OtaRecord)

/-- Field access `device_info.get(k)` on a record. -/
def recordGet (rec : OtaRecord) (k : String) : Option String := rec.lookup k

/-- Outcome of the OTA decision (spec §4.3): up to date, or an update
available carrying the policy's firmware filename. -/
inductive OtaDecision where
  | upToDate
  | updateAvailable (filename : String)
deriving DecidableEq, Repr

/-- Successful responses of the OTA handler: `304 Not Modified` with
empty body, or a streamed firmware file (served path and filename). -/
inductive OtaResult where
  | notModified
  | fileResponse (path filename : String)
deriving DecidableEq, Repr

/-- The decision portion of `ota_update` (`main.py` lines 78–107):
load `ota_config.json` (500 on missing/malformed), look up the device
model (`if not device_info` — absent key or empty record — is a 404),
require both `latest_version` and `filename` truthy (else 500), parse
both versions (`InvalidVersion` escapes on malformed input), and
compare: `client_version >= latest_version` is up-to-date, otherwise
an update with the record's filename. -/
def ota_decide (src : ConfigSource OtaPolicyDoc)
    (device_model current_version : String) : Except AppError OtaDecision :=
  match src with
  | .missing => .error .configuration
  | .malformed => .error .configuration
  | .ok ota_config =>
    match ota_config.lookup device_model with
    | none => .error .notFound
    | some device_info =>
      if device_info = [] then .error .notFound
      else
        match recordGet device_info "latest_version",
              recordGet device_info "filename" with
        | some latest_version_str, some firmware_filename =>
          if latest_version_str = "" ∨ firmware_filename = "" then
            .error .configuration
          else
            match parseVersion current_version, parseVersion latest_version_str with
            | some client_version, some latest_version =>
              if compareVersion client_version latest_version = .lt then
                .ok (.updateAvailable firmware_filename)
              else .ok .upToDate
            | _, _ => .error .invalidVersion
        | _, _ => .error .configuration

/-- `ota_update` (`main.py` lines 64–122): the decision above followed
by serving the firmware file through the Safe File Responder
(lines 110–121); `upToDate` surfaces as `304 Not Modified`. -/
def ota_update (fs : FS) (src : ConfigSource OtaPolicyDoc)
    (device_model current_version : String) : Except AppError OtaResult :=
  match ota_decide src device_model current_version with
  | .error e => .error e
  | .ok .upToDate => .ok .notModified
  | .ok (.updateAvailable firmware_filename) =>
    match serve_file fs FILES_DIR firmware_filename with
    | .error e => .error e
    | .ok path => .ok (.fileResponse path firmware_filename)

/-! ## Lawfulness of the comparator

The spec (§4.2, §8) requires `compare` to be a total order on valid
version strings: reflexive, antisymmetric (swapping the arguments
mirrors the result) and transitive. We establish these for each layer
of the comparator. -/

/-- A three-way comparison that denotes a total order: reflexive,
argument-swap antisymmetric, equality-reflecting, and transitive. -/
structure LawfulCmp (cmp : α → α → Ordering) : Prop where
  rfl_eq : ∀ a, cmp a a = .eq
  swap_eq : ∀ a b, cmp a b = (cmp b a).swap
  eq_of : ∀ a b, cmp a b = .eq → a = b
  lt_trans : ∀ a b c, cmp a b = .lt → cmp b c = .lt → cmp a c = .lt

theorem cmpNat_eq_lt {a b : Nat} : cmpNat a b = .lt ↔ a < b := by
  unfold cmpNat; split_ifs <;> simp_all

theorem cmpNat_eq_gt {a b : Nat} : cmpNat a b = .gt ↔ b < a := by
  unfold cmpNat; split_ifs <;> simp_all; omega

theorem cmpNat_eq_eq {a b : Nat} : cmpNat a b = .eq ↔ a = b := by
  unfold cmpNat; split_ifs <;> simp_all <;> omega

theorem cmpNat_lawful : LawfulCmp cmpNat := by
  refine ⟨?_, ?_, ?_, ?_⟩
  · intro a; exact cmpNat_eq_eq.mpr rfl
  · intro a b
    rcases Nat.lt_trichotomy a b with h | h | h
    · rw [cmpNat_eq_lt.mpr h, cmpNat_eq_gt.mpr h]; rfl
    · rw [cmpNat_eq_eq.mpr h, cmpNat_eq_eq.mpr h.symm]; rfl
    · rw [cmpNat_eq_gt.mpr h, cmpNat_eq_lt.mpr h]; rfl
  · intro a b h; exact cmpNat_eq_eq.mp h
  · intro a b c h1 h2
    exact cmpNat_eq_lt.mpr (Nat.lt_trans (cmpNat_eq_lt.mp h1) (cmpNat_eq_lt.mp h2))

theorem cmpChar_lawful : LawfulCmp cmpChar := by
  refine ⟨fun a => cmpNat_lawful.rfl_eq _, fun a b => cmpNat_lawful.swap_eq _ _,
    fun a b h => ?_, fun a b c h1 h2 => cmpNat_lawful.lt_trans _ _ _ h1 h2⟩
  have hn := cmpNat_lawful.eq_of _ _ h
  exact Char.eq_of_val_eq (UInt32.eq_of_val_eq (Fin.ext hn))

theorem cmpLex_rfl (cmp : α → α → Ordering) (h : LawfulCmp cmp) :
    ∀ l, cmpLex cmp l l = .eq := by
  intro l
  induction l with
  | nil => rfl
  | cons a as ih => simp [cmpLex, h.rfl_eq, Ordering.then, ih]

theorem cmpLex_swap (cmp : α → α → Ordering) (h : LawfulCmp cmp) :
    ∀ l m, cmpLex cmp l m = (cmpLex cmp m l).swap := by
  intro l
  induction l with
  | nil => intro m; cases m <;> rfl
  | cons a as ih =>
    intro m
    cases m with
    | nil => rfl
    | cons b bs =>
      simp only [cmpLex, Ordering.swap_then, ← h.swap_eq, ← ih]

theorem cmpLex_eq_of (cmp : α → α → Ordering) (h : LawfulCmp cmp) :
    ∀ l m, cmpLex cmp l m = .eq → l = m := by
  intro l
  induction l with
  | nil => intro m hm; cases m with
    | nil => rfl
    | cons b bs => simp [cmpLex] at hm
  | cons a as ih =>
    intro m hm
    cases m with
    | nil => simp [cmpLex] at hm
    | cons b bs =>
      simp only [cmpLex, Ordering.then_eq_eq] at hm
      rw [h.eq_of _ _ hm.1, ih _ hm.2]

theorem cmpLex_lt_trans (cmp : α → α → Ordering) (h : LawfulCmp cmp) :
    ∀ l m n, cmpLex cmp l m = .lt → cmpLex cmp m n = .lt → cmpLex cmp l n = .lt := by
  intro l
  induction l with
  | nil =>
    intro m n h1 h2
    cases m with
    | nil => exact h2
    | cons b bs => cases n with
      | nil => simp [cmpLex] at h2
      | cons c cs => rfl
  | cons a as ih =>
    intro m n h1 h2
    cases m with
    | nil => simp [cmpLex] at h1
    | cons b bs =>
      cases n with
      | nil => simp [cmpLex] at h2
      | cons c cs =>
        simp only [cmpLex, Ordering.then_eq_lt] at h1 h2 ⊢
        rcases h1 with h1 | ⟨h1e, h1r⟩
        · rcases h2 with h2 | ⟨h2e, h2r⟩
          · exact .inl (h.lt_trans _ _ _ h1 h2)
          · exact .inl (h.eq_of _ _ h2e ▸ h1)
        · rcases h2 with h2 | ⟨h2e, h2r⟩
          · exact .inl (h.eq_of _ _ h1e ▸ h2)
          · exact .inr ⟨h.eq_of _ _ h2e ▸ h1e, ih _ _ h1r h2r⟩

theorem cmpLex_lawful (cmp : α → α → Ordering) (h : LawfulCmp cmp) :
    LawfulCmp (cmpLex cmp) :=
  ⟨cmpLex_rfl cmp h, cmpLex_swap cmp h, cmpLex_eq_of cmp h, cmpLex_lt_trans cmp h⟩

theorem cmpPreId_lawful : LawfulCmp cmpPreId := by
  have hc := cmpLex_lawful cmpChar cmpChar_lawful
  refine ⟨?_, ?_, ?_, ?_⟩
  · intro a
    cases a with
    | num n => exact cmpNat_lawful.rfl_eq n
    | alnum s => exact hc.rfl_eq s
  · intro a b
    cases a <;> cases b <;>
      first
        | rfl
        | exact cmpNat_lawful.swap_eq _ _
        | exact hc.swap_eq _ _
  · intro a b h
    cases a <;> cases b <;>
      first
        | exact Ordering.noConfusion h
        | exact congrArg PreId.num (cmpNat_lawful.eq_of _ _ h)
        | exact congrArg PreId.alnum (hc.eq_of _ _ h)
  · intro a b c h1 h2
    cases a <;> cases b <;> cases c <;>
      first
        | rfl
        | exact Ordering.noConfusion h1
        | exact Ordering.noConfusion h2
        | exact cmpNat_lawful.lt_trans _ _ _ h1 h2
        | exact hc.lt_trans _ _ _ h1 h2

theorem cmpPre_lawful : LawfulCmp cmpPre := by
  have hp := cmpLex_lawful cmpPreId cmpPreId_lawful
  refine ⟨?_, ?_, ?_, ?_⟩
  · intro a
    cases a with
    | none => rfl
    | some l => exact hp.rfl_eq l
  · intro a b
    cases a <;> cases b <;>
      first
        | rfl
        | exact hp.swap_eq _ _
  · intro a b h
    cases a <;> cases b <;>
      first
        | rfl
        | exact Ordering.noConfusion h
        | exact congrArg Option.some (hp.eq_of _ _ h)
  · intro a b c h1 h2
    cases a <;> cases b <;> cases c <;>
      first
        | rfl
        | exact Ordering.noConfusion h1
        | exact Ordering.noConfusion h2
        | exact hp.lt_trans _ _ _ h1 h2

/-- Lexicographic composition of two comparisons on a pair. -/
def cmpProd (cmp1 : α → α → Ordering) (cmp2 : β → β → Ordering)
    (x y : α × β) : Ordering :=
  (cmp1 x.1 y.1).then (cmp2 x.2 y.2)

theorem cmpProd_lawful {cmp1 : α → α → Ordering} {cmp2 : β → β → Ordering}
    (h1 : LawfulCmp cmp1) (h2 : LawfulCmp cmp2) :
    LawfulCmp (cmpProd cmp1 cmp2) := by
  refine ⟨?_, ?_, ?_, ?_⟩
  · intro a; simp [cmpProd, h1.rfl_eq, h2.rfl_eq, Ordering.then]
  · intro a b
    simp only [cmpProd, Ordering.swap_then, ← h1.swap_eq, ← h2.swap_eq]
  · intro a b h
    simp only [cmpProd, Ordering.then_eq_eq] at h
    obtain ⟨e1, e2⟩ := h
    obtain ⟨a1, a2⟩ := a; obtain ⟨b1, b2⟩ := b
    dsimp only at e1 e2
    rw [h1.eq_of _ _ e1, h2.eq_of _ _ e2]
  · intro a b c hab hbc
    simp only [cmpProd, Ordering.then_eq_lt] at hab hbc ⊢
    rcases hab with hab | ⟨habe, habr⟩
    · rcases hbc with hbc | ⟨hbce, hbcr⟩
      · exact .inl (h1.lt_trans _ _ _ hab hbc)
      · exact .inl (h1.eq_of _ _ hbce ▸ hab)
    · rcases hbc with hbc | ⟨hbce, hbcr⟩
      · exact .inl (h1.eq_of _ _ habe ▸ hbc)
      · exact .inr ⟨h1.eq_of _ _ hbce ▸ habe, h2.lt_trans _ _ _ habr hbcr⟩

/-- The ordered tuple a `Version` denotes. -/
def versionKey (v : Version) : Nat × (Nat × (Nat × Option (List PreId))) :=
  (v.major, v.minor, v.patch, v.pre)

theorem versionKey_inj {a b : Version} (h : versionKey a = versionKey b) : a = b := by
  cases a; cases b
  simp only [versionKey, Prod.mk.injEq] at h
  obtain ⟨e1, e2, e3, e4⟩ := h
  rw [e1, e2, e3, e4]

theorem compareVersion_eq_cmpProd (a b : Version) :
    compareVersion a b =
      cmpProd cmpNat (cmpProd cmpNat (cmpProd cmpNat cmpPre))
        (versionKey a) (versionKey b) := rfl

/-- The version ordering is lawful: reflexive, swap-antisymmetric,
equality-reflecting and transitive. -/
theorem compareVersion_lawful : LawfulCmp compareVersion := by
  have hp : LawfulCmp (cmpProd cmpNat (cmpProd cmpNat (cmpProd cmpNat cmpPre))) :=
    cmpProd_lawful cmpNat_lawful
      (cmpProd_lawful cmpNat_lawful (cmpProd_lawful cmpNat_lawful cmpPre_lawful))
  refine ⟨?_, ?_, ?_, ?_⟩
  · intro a; rw [compareVersion_eq_cmpProd]; exact hp.rfl_eq _
  · intro a b
    rw [compareVersion_eq_cmpProd, compareVersion_eq_cmpProd]
    exact hp.swap_eq _ _
  · intro a b h
    rw [compareVersion_eq_cmpProd] at h
    exact versionKey_inj (hp.eq_of _ _ h)
  · intro a b c h1 h2
    rw [compareVersion_eq_cmpProd] at h1 h2 ⊢
    exact hp.lt_trans _ _ _ h1 h2

/-! ## Helper lemmas shared by the claim theorems -/

theorem ordSwap_gt {o : Ordering} : o.swap = .gt ↔ o = .lt := by
  cases o <;> simp [Ordering.swap]

theorem ordSwap_eq {o : Ordering} : o.swap = .eq ↔ o = .eq := by
  cases o <;> simp [Ordering.swap]

theorem serve_file_notFound (fs : FS) (root filename : String)
    (h : fs.isfile (osJoin root filename) = false) :
    serve_file fs root filename = .error .notFound := by
  simp [serve_file, h]

theorem serve_file_forbidden_isfile (fs : FS) (root filename : String)
    (h : serve_file fs root filename = .error .forbidden) :
    fs.isfile (osJoin root filename) = true := by
  by_contra hc
  rw [Bool.not_eq_true] at hc
  rw [serve_file_notFound fs root filename hc] at h
  exact AppError.noConfusion (Except.error.inj h)

theorem ota_update_of_decide_error (fs : FS) (src : ConfigSource OtaPolicyDoc)
    (model cv : String) (e : AppError) (h : ota_decide src model cv = .error e) :
    ota_update fs src model cv = .error e := by
  simp [ota_update, h]

theorem ota_decide_notFound_of_lookup (doc : OtaPolicyDoc) (model cv : String)
    (h : doc.lookup model = none ∨ doc.lookup model = some ([] : OtaRecord)) :
    ota_decide (.ok doc) model cv = .error .notFound := by
  rcases h with h | h <;> simp [ota_decide, h]

theorem ota_decide_config_of_incomplete (doc : OtaPolicyDoc) (model cv : String)
    (rec : OtaRecord) (hlook : doc.lookup model = some rec) (hne : rec ≠ [])
    (hbad : recordGet rec "latest_version" = none ∨
      recordGet rec "latest_version" = some "" ∨
      recordGet rec "filename" = none ∨ recordGet rec "filename" = some "") :
    ota_decide (.ok doc) model cv = .error .configuration := by
  rcases hl : recordGet rec "latest_version" with _ | lv
  · simp [ota_decide, hlook, hne, hl]
  · rcases hf : recordGet rec "filename" with _ | fw
    · simp [ota_decide, hlook, hne, hl, hf]
    · have hempty : lv = "" ∨ fw = "" := by
        rcases hbad with h | h | h | h
        · rw [hl] at h; exact Option.noConfusion h
        · rw [hl] at h; exact .inl (Option.some.inj h)
        · rw [hf] at h; exact Option.noConfusion h
        · rw [hf] at h; exact .inr (Option.some.inj h)
      simp [ota_decide, hlook, hne, hl, hf, hempty]

/-! ## Claims -/

/-- A filesystem exhibiting the sibling-directory escape: the storage
root canonicalizes to `/root`, and the joined path
`static_files/evil.bin` is a regular file whose canonical path
(through a symlink) is `/root2/secret` — a sibling of the root, not a
descendant. -/
def fsSibling : FS where
  isfile := fun p => p == "static_files/evil.bin"
  realpath := fun p =>
    if p == "static_files" then "/root"
    else if p == "static_files/evil.bin" then "/root2/secret"
    else p

/-- C1: the claim says that whenever the canonicalized joined path does
not have the canonicalized storage root as a directory-boundary-aware
path prefix, serving fails with `ForbiddenError` and the file is never
streamed. The code instead uses `os.path.commonprefix`, a naive
character-wise prefix: with root canonicalizing to `/root` and the
candidate to `/root2/secret`, the boundary-aware containment fails,
yet the character-wise common prefix is exactly `/root`, so the check
passes and the file is served — both directly by the Safe File
Responder and end-to-end through the alias handler. The claim states
the spec's clear intent (its §3 invariant), so this is a bug in the
code's containment check. -/
theorem c1_containment_check_not_boundary_aware :
    isPathUnder (fsSibling.realpath FILES_DIR)
        (fsSibling.realpath (osJoin FILES_DIR "evil.bin")) = false ∧
    fsSibling.isfile (osJoin FILES_DIR "evil.bin") = true ∧
    serve_file fsSibling FILES_DIR "evil.bin" ≠ .error .forbidden ∧
    serve_file fsSibling FILES_DIR "evil.bin" = .ok "static_files/evil.bin" ∧
    request_file_by_alias fsSibling (.ok [("evil", "evil.bin")]) "evil" =
      .ok "static_files/evil.bin" := by
  refine ⟨rfl, rfl, ?_, rfl, rfl⟩
  intro h
  exact Except.noConfusion h

/-- C2: the comparator orders `"2.0.1"` above `"1.10.0"` by numeric
component comparison, and an OTA request with
`current_version = "1.10.0"` against a configured
`latest_version = "2.0.1"` takes the update-available path carrying
the policy's filename. -/
theorem c2_numeric_component_ordering :
    compareVersionStr "2.0.1" "1.10.0" = .ok .gt ∧
    ota_decide
        (.ok [("esp32-s3-generic",
          [("latest_version", "2.0.1"), ("filename", "fw_v2_0_1.bin")])])
        "esp32-s3-generic" "1.10.0" = .ok (.updateAvailable "fw_v2_0_1.bin") :=
  ⟨rfl, rfl⟩

/-- C5: for an alias present in the mapping with a non-empty value,
`resolve` returns exactly the mapped filename unmodified; for an alias
absent from the mapping, or present but mapped to the empty (falsy)
string, it fails with `NotFoundError`. -/
theorem c5_resolve_contract (mapping : List (String × String))
    (aliasName fn : String) :
    (mapping.lookup aliasName = some fn → fn ≠ "" →
      get_filename_from_alias (.ok mapping) aliasName = .ok fn) ∧
    (mapping.lookup aliasName = none →
      get_filename_from_alias (.ok mapping) aliasName = .error .notFound) ∧
    (mapping.lookup aliasName = some "" →
      get_filename_from_alias (.ok mapping) aliasName = .error .notFound) := by
  refine ⟨fun h hne => ?_, fun h => ?_, fun h => ?_⟩
  · simp [get_filename_from_alias, h, hne]
  · simp [get_filename_from_alias, h]
  · simp [get_filename_from_alias, h]

/-- Witness for C5 at a concrete mapping. -/
theorem c5_resolve_contract_witness :
    get_filename_from_alias (.ok [("latest_firmware", "fw_v3.bin")])
      "latest_firmware" = .ok "fw_v3.bin" ∧
    get_filename_from_alias (.ok [("latest_firmware", "fw_v3.bin")])
      "missing" = .error .notFound ∧
    get_filename_from_alias (.ok [("empty_alias", "")])
      "empty_alias" = .error .notFound :=
  ⟨(c5_resolve_contract [("latest_firmware", "fw_v3.bin")] "latest_firmware"
      "fw_v3.bin").1 rfl (by decide),
   (c5_resolve_contract [("latest_firmware", "fw_v3.bin")] "missing" "x").2.1 rfl,
   (c5_resolve_contract [("empty_alias", "")] "empty_alias" "x").2.2 rfl⟩

/-- C6: when the relevant configuration source is missing or
malformed, both handlers fail with `ConfigurationError` (HTTP 500) —
in particular never with `NotFoundError` and never successfully. -/
theorem c6_configuration_source_errors (fs : FS) (aliasName model cv : String) :
    request_file_by_alias fs .missing aliasName = .error .configuration ∧
    request_file_by_alias fs .malformed aliasName = .error .configuration ∧
    ota_update fs .missing model cv = .error .configuration ∧
    ota_update fs .malformed model cv = .error .configuration :=
  ⟨rfl, rfl, rfl, rfl⟩

/-- C3: for a configured device model whose record is complete and
whose versions parse, the OTA decision is `UpToDate` — surfaced by the
handler as the empty-bodied `304 Not Modified` — exactly when
`compare(current_version, latest_version)` is `EQUAL` or `GREATER`,
and `UpdateAvailable` carrying the policy's filename otherwise; in
particular equal versions never produce an update. -/
theorem c3_decision_rule (fs : FS) (doc : OtaPolicyDoc) (rec : OtaRecord)
    (model cv lv fw : String) (vc vl : Version)
    (hlook : doc.lookup model = some rec) (hne : rec ≠ [])
    (hlv : recordGet rec "latest_version" = some lv)
    (hfw : recordGet rec "filename" = some fw)
    (hlvne : lv ≠ "") (hfwne : fw ≠ "")
    (hpc : parseVersion cv = some vc) (hpl : parseVersion lv = some vl) :
    (ota_decide (.ok doc) model cv = .ok .upToDate ↔
      (compareVersion vc vl = .eq ∨ compareVersion vc vl = .gt)) ∧
    (ota_decide (.ok doc) model cv = .ok (.updateAvailable fw) ↔
      compareVersion vc vl = .lt) ∧
    (ota_decide (.ok doc) model cv = .ok .upToDate →
      ota_update fs (.ok doc) model cv = .ok .notModified) := by
  have hd : ota_decide (.ok doc) model cv =
      if compareVersion vc vl = .lt then .ok (.updateAvailable fw)
      else .ok .upToDate := by
    simp [ota_decide, hlook, hne, hlv, hfw, hlvne, hfwne, hpc, hpl]
  rw [hd]
  cases h : compareVersion vc vl <;> simp [h, ota_update, hd]

/-- Witness for C3 at the spec's end-to-end scenario 2 policy with
equal versions. -/
theorem c3_decision_rule_witness :
    ota_decide (.ok [("esp32-s3-generic",
        [("latest_version", "2.0.1"), ("filename", "fw_v2_0_1.bin")])])
      "esp32-s3-generic" "2.0.1" = .ok .upToDate ∧
    ota_update ⟨fun _ => false, fun p => p⟩ (.ok [("esp32-s3-generic",
        [("latest_version", "2.0.1"), ("filename", "fw_v2_0_1.bin")])])
      "esp32-s3-generic" "2.0.1" = .ok .notModified := by
  have h := c3_decision_rule ⟨fun _ => false, fun p => p⟩
    [("esp32-s3-generic",
      [("latest_version", "2.0.1"), ("filename", "fw_v2_0_1.bin")])]
    [("latest_version", "2.0.1"), ("filename", "fw_v2_0_1.bin")]
    "esp32-s3-generic" "2.0.1" "2.0.1" "fw_v2_0_1.bin"
    ⟨2, 0, 1, none⟩ ⟨2, 0, 1, none⟩
    rfl (by decide) rfl rfl (by decide) (by decide) rfl rfl
  exact ⟨h.1.mpr (.inl rfl), h.2.2 (h.1.mpr (.inl rfl))⟩

/-- C4: on valid version strings the comparator is a total order:
`compare(X, X) = EQUAL`; the ordering is antisymmetric — swapping the
arguments exchanges `GREATER` with `LESS` and preserves `EQUAL` — and
`LESS` is transitive across any three valid versions. -/
theorem c4_total_order (x y z : String) (vx vy vz : Version)
    (hx : parseVersion x = some vx) (hy : parseVersion y = some vy)
    (hz : parseVersion z = some vz) :
    compareVersionStr x x = .ok .eq ∧
    (compareVersionStr x y = .ok .gt ↔ compareVersionStr y x = .ok .lt) ∧
    (compareVersionStr x y = .ok .eq ↔ compareVersionStr y x = .ok .eq) ∧
    (compareVersionStr x y = .ok .lt → compareVersionStr y z = .ok .lt →
      compareVersionStr x z = .ok .lt) := by
  simp only [compareVersionStr, hx, hy, hz]
  refine ⟨?_, ?_, ?_, ?_⟩
  · rw [compareVersion_lawful.rfl_eq]
  · rw [compareVersion_lawful.swap_eq vx vy]
    simp only [Except.ok.injEq]
    exact ordSwap_gt
  · rw [compareVersion_lawful.swap_eq vx vy]
    simp only [Except.ok.injEq]
    exact ordSwap_eq
  · intro h1 h2
    simp only [Except.ok.injEq] at h1 h2 ⊢
    exact compareVersion_lawful.lt_trans _ _ _ h1 h2

/-- Witness for C4 at concrete version strings. -/
theorem c4_total_order_witness :
    compareVersionStr "1.2.3" "1.2.3" = .ok .eq ∧
    compareVersionStr "1.2.3" "3.0.0" = .ok .lt := by
  have h := c4_total_order "1.2.3" "2.0.0" "3.0.0"
    ⟨1, 2, 3, none⟩ ⟨2, 0, 0, none⟩ ⟨3, 0, 0, none⟩ rfl rfl rfl
  exact ⟨h.1, h.2.2.2 rfl rfl⟩

/-- C7 counterexample: with `ota_config.json = {"esp32": {}}` the key
`"esp32"` is present and its record lacks both required fields, yet
the decision fails with `NotFoundError` — Python's
`if not device_info` treats the present-but-empty record as falsy —
not with `ConfigurationError` as the claim requires. -/
theorem c7_counterexample :
    (List.lookup "esp32" [("esp32", ([] : OtaRecord))]).isSome = true ∧
    ota_decide (.ok [("esp32", ([] : OtaRecord))]) "esp32" "1.0.0" =
      .error .notFound :=
  ⟨rfl, rfl⟩

/-- C7 (amended): a device model that is absent — or present but
mapped to an empty, falsy record — fails with `NotFoundError`; a model
mapped to a non-empty record lacking a non-empty `latest_version` or a
non-empty `filename` fails with `ConfigurationError`. -/
theorem c7_error_classes (doc : OtaPolicyDoc) (model cv : String) :
    (doc.lookup model = none →
      ota_decide (.ok doc) model cv = .error .notFound) ∧
    (doc.lookup model = some ([] : OtaRecord) →
      ota_decide (.ok doc) model cv = .error .notFound) ∧
    (∀ rec : OtaRecord, doc.lookup model = some rec → rec ≠ [] →
      (recordGet rec "latest_version" = none ∨
        recordGet rec "latest_version" = some "" ∨
        recordGet rec "filename" = none ∨
        recordGet rec "filename" = some "") →
      ota_decide (.ok doc) model cv = .error .configuration) :=
  ⟨fun h => ota_decide_notFound_of_lookup doc model cv (.inl h),
   fun h => ota_decide_notFound_of_lookup doc model cv (.inr h),
   fun rec hlook hne hbad =>
     ota_decide_config_of_incomplete doc model cv rec hlook hne hbad⟩

/-- Witness for C7 (amended) at concrete policies. -/
theorem c7_error_classes_witness :
    ota_decide (.ok [("esp32", [("latest_version", "1.0.0")])])
      "other-model" "1.0.0" = .error .notFound ∧
    ota_decide (.ok [("esp32", [("latest_version", "1.0.0")])])
      "esp32" "1.0.0" = .error .configuration := by
  have h := c7_error_classes [("esp32", [("latest_version", "1.0.0")])]
    "other-model" "1.0.0"
  have h2 := c7_error_classes [("esp32", [("latest_version", "1.0.0")])]
    "esp32" "1.0.0"
  exact ⟨h.1 rfl,
    h2.2.2 [("latest_version", "1.0.0")] rfl (by decide)
      (.inr (.inr (.inl rfl)))⟩

/-- C8: a malformed version string — whether the device-supplied
`current_version` or the configured `latest_version` — makes the
comparator fail with `InvalidVersionError`, and with it the OTA
decision; no partial match is guessed and no comparison result is
produced. -/
theorem c8_invalid_version_hard_failure (a b cv model : String)
    (doc : OtaPolicyDoc) :
    ((parseVersion a = none ∨ parseVersion b = none) →
      compareVersionStr a b = .error .invalidVersion) ∧
    (∀ rec lv fw, doc.lookup model = some rec → rec ≠ [] →
      recordGet rec "latest_version" = some lv →
      recordGet rec "filename" = some fw → lv ≠ "" → fw ≠ "" →
      (parseVersion cv = none ∨ parseVersion lv = none) →
      ota_decide (.ok doc) model cv = .error .invalidVersion) := by
  constructor
  · intro h
    rcases h with h | h
    · simp [compareVersionStr, h]
    · cases hpa : parseVersion a <;> simp [compareVersionStr, hpa, h]
  · intro rec lv fw hlook hne hlv hfw hlvne hfwne h
    rcases h with h | h
    · simp [ota_decide, hlook, hne, hlv, hfw, hlvne, hfwne, h]
    · cases hpc : parseVersion cv <;>
        simp [ota_decide, hlook, hne, hlv, hfw, hlvne, hfwne, hpc, h]

/-- Witness for C8: an unparsable device version, and an unparsable
configured version behind a complete record. -/
theorem c8_invalid_version_witness :
    compareVersionStr "not.a.version" "1.0.0" = .error .invalidVersion ∧
    ota_decide
      (.ok [("m", [("latest_version", "garbage"), ("filename", "f.bin")])])
      "m" "1.0.0" = .error .invalidVersion := by
  have h := c8_invalid_version_hard_failure "not.a.version" "1.0.0" "1.0.0" "m"
    [("m", [("latest_version", "garbage"), ("filename", "f.bin")])]
  exact ⟨h.1 (.inl rfl),
    h.2 [("latest_version", "garbage"), ("filename", "f.bin")] "garbage" "f.bin"
      rfl (by decide) rfl rfl (by decide) (by decide) (.inr rfl)⟩

/-- C9: in both handlers the existence check runs before the
containment check: a joined path that is not a regular file yields
`NotFoundError` no matter whether it also escapes the storage root,
and `ForbiddenError` is only ever produced for joined paths that exist
as regular files. -/
theorem c9_exists_before_containment (fs : FS)
    (src : ConfigSource (List (String × String)))
    (srcOta : ConfigSource OtaPolicyDoc)
    (aliasName model cv filename : String) :
    (fs.isfile (osJoin FILES_DIR filename) = false →
      serve_file fs FILES_DIR filename = .error .notFound) ∧
    (serve_file fs FILES_DIR filename = .error .forbidden →
      fs.isfile (osJoin FILES_DIR filename) = true) ∧
    (get_filename_from_alias src aliasName = .ok filename →
      fs.isfile (osJoin FILES_DIR filename) = false →
      request_file_by_alias fs src aliasName = .error .notFound) ∧
    (ota_decide srcOta model cv = .ok (.updateAvailable filename) →
      fs.isfile (osJoin FILES_DIR filename) = false →
      ota_update fs srcOta model cv = .error .notFound) := by
  refine ⟨serve_file_notFound fs FILES_DIR filename,
    serve_file_forbidden_isfile fs FILES_DIR filename, ?_, ?_⟩
  · intro hres h
    simp [request_file_by_alias, hres, serve_file_notFound fs FILES_DIR filename h]
  · intro hres h
    simp [ota_update, hres, serve_file_notFound fs FILES_DIR filename h]

/-- Witness for C9: a traversal filename whose joined path does not
exist is reported as 404, directly and through the alias handler. -/
theorem c9_exists_before_containment_witness :
    serve_file ⟨fun _ => false, fun p => p⟩ FILES_DIR "../../etc/passwd" =
      .error .notFound ∧
    request_file_by_alias ⟨fun _ => false, fun p => p⟩
      (.ok [("evil", "../../etc/passwd")]) "evil" = .error .notFound := by
  have h := c9_exists_before_containment ⟨fun _ => false, fun p => p⟩
    (.ok [("evil", "../../etc/passwd")]) .missing
    "evil" "m" "1.0.0" "../../etc/passwd"
  exact ⟨h.1 rfl, h.2.2.1 rfl rfl⟩

/-- C10: the OTA handler parses versions only after the policy load,
the model lookup and the record validation have succeeded: an unknown
device model — or an incomplete record — produces that earlier error
for every `current_version`, parsable or not (the statement places no
condition on `cv`). -/
theorem c10_validation_before_parsing (fs : FS) (doc : OtaPolicyDoc)
    (model cv : String) :
    (doc.lookup model = none →
      ota_update fs (.ok doc) model cv = .error .notFound) ∧
    (doc.lookup model = some ([] : OtaRecord) →
      ota_update fs (.ok doc) model cv = .error .notFound) ∧
    (∀ rec : OtaRecord, doc.lookup model = some rec → rec ≠ [] →
      (recordGet rec "latest_version" = none ∨
        recordGet rec "latest_version" = some "" ∨
        recordGet rec "filename" = none ∨
        recordGet rec "filename" = some "") →
      ota_update fs (.ok doc) model cv = .error .configuration) :=
  ⟨fun h => ota_update_of_decide_error fs _ model cv _
      (ota_decide_notFound_of_lookup doc model cv (.inl h)),
   fun h => ota_update_of_decide_error fs _ model cv _
      (ota_decide_notFound_of_lookup doc model cv (.inr h)),
   fun rec hlook hne hbad => ota_update_of_decide_error fs _ model cv _
      (ota_decide_config_of_incomplete doc model cv rec hlook hne hbad)⟩

/-- Witness for C10 with an unparsable `current_version`: the earlier
errors surface untouched by version parsing. -/
theorem c10_validation_before_parsing_witness :
    parseVersion "!!bad!!" = none ∧
    ota_update ⟨fun _ => false, fun p => p⟩
      (.ok [("esp32", [("latest_version", "1.0.0"), ("filename", "f.bin")])])
      "unknown-model" "!!bad!!" = .error .notFound ∧
    ota_update ⟨fun _ => false, fun p => p⟩
      (.ok [("esp32", [("filename", "f.bin")])]) "esp32" "!!bad!!" =
      .error .configuration := by
  have h1 := c10_validation_before_parsing ⟨fun _ => false, fun p => p⟩
    [("esp32", [("latest_version", "1.0.0"), ("filename", "f.bin")])]
    "unknown-model" "!!bad!!"
  have h2 := c10_validation_before_parsing ⟨fun _ => false, fun p => p⟩
    [("esp32", [("filename", "f.bin")])] "esp32" "!!bad!!"
  exact ⟨rfl, h1.1 rfl, h2.2.2 [("filename", "f.bin")] rfl (by decide) (.inl rfl)⟩
